import Mathlib

set_option maxHeartbeats 1000000

namespace DownloaderCli

/-! Shallow embedding of the concurrent download engine of the
`downloader-cli` repository (`src/lib.rs`, `src/builder.rs`).

External effects (filesystem, HTTP transport, tokio runtime) are modelled
by an explicit per-task environment `Env`; the reporter handle of a task is
modelled by the trace of events the pipeline emits for it. -/

/-- One reporter lifecycle event, one constructor per method of the
`DownloadReporter` trait (`src/reporter.rs`). -/
inductive Event where
  | on_request (url : String)
  | on_response
  | on_file_exists (path : String) (overwrite : Bool)
  | on_file_create (path : String)
  | on_file_size_known (size : Option Nat)
  | on_start_download (url : String) (path : String)
  | on_progress (delta : Nat)
  | on_complete (url : String) (path : String)
  | on_error
  deriving DecidableEq

/-- A per-task failure, classified by the phase of the pipeline that
produced the corresponding `anyhow::Error` in the source. -/
inductive DlError where
  | invalidUrl (url : String)
  | existsCheckFailed (path : String)
  | removeFailed (path : String)
  | fileExists (path : String)
  | requestFailed (url : String)
  | badStatus (url : String) (status : Nat)
  | createFailed (path : String)
  | chunkReadFailed
  | writeFailed
  | flushFailed
  deriving DecidableEq

/-- `DownloadTask` (`src/lib.rs`): url, output path, overwrite flag.  The
`reporter` handle is modelled by the event trace the pipeline returns. -/
structure DownloadTask where
  url : String
  output : String
  overwrite : Bool
  deriving DecidableEq

/-- One item of the response body stream: a read error, or a chunk of
bytes together with whether writing it to the file succeeds. -/
inductive StreamItem where
  | readError
  | chunk (data : List Nat) (writeOk : Bool)
  deriving DecidableEq

/-- The HTTP response the environment supplies for a task. -/
structure HttpResponse where
  status : Nat
  contentLength : Option Nat
  finalUrl : String
  chunks : List StreamItem
  deriving DecidableEq

/-- The external world one task's pipeline interacts with: outcome of the
existence check, of `remove_file`, the transport result, and outcomes of
`File::create` and the final flush. -/
structure Env where
  existsCheckOk : Bool
  fileExists : Bool
  removeOk : Bool
  response : Except Unit HttpResponse
  createOk : Bool
  flushOk : Bool

/-- `reqwest::StatusCode::is_success`: the 2xx range. -/
def isSuccessStatus (s : Nat) : Bool := 200 ≤ s && s < 300

/-- `Downloader::handle_existing_file` (`src/lib.rs` lines 217-238).
Returns the events it emits and `Ok false` to proceed, `Ok true` when the
file exists and may not be overwritten, or the error of a failed
existence check / removal. -/
def handle_existing_file (env : Env) (task : DownloadTask) :
    List Event × Except DlError Bool :=
  if env.existsCheckOk then
    if env.fileExists then
      if task.overwrite then
        if env.removeOk then
          ([Event.on_file_exists task.output task.overwrite], Except.ok false)
        else
          ([Event.on_file_exists task.output task.overwrite],
           Except.error (DlError.removeFailed task.output))
      else
        ([Event.on_file_exists task.output task.overwrite], Except.ok true)
    else ([], Except.ok false)
  else ([], Except.error (DlError.existsCheckFailed task.output))

/-- The chunk loop of `Downloader::download_stream` (`src/lib.rs` lines
204-208): for each chunk, a read error aborts; otherwise the bytes are
written with `write_all` and only then `on_progress` reports the chunk
length.  Returns the bytes written, the events emitted, and the result. -/
def runChunks : List StreamItem → List Nat × List Event × Except DlError Unit
  | [] => ([], [], Except.ok ())
  | StreamItem.readError :: _ => ([], [], Except.error DlError.chunkReadFailed)
  | StreamItem.chunk data ok :: rest =>
    if ok then
      let r := runChunks rest
      (data ++ r.1, Event.on_progress data.length :: r.2.1, r.2.2)
    else ([], [], Except.error DlError.writeFailed)

/-- The observable outcome of `download_stream` for one task. -/
structure StreamOutcome where
  fileCreated : Bool
  written : List Nat
  events : List Event
  result : Except DlError Unit

/-- `Downloader::download_stream` (`src/lib.rs` lines 189-212): create the
file, report `on_file_create` and `on_start_download`, run the chunk loop,
then flush. -/
def download_stream (env : Env) (task : DownloadTask) (resp : HttpResponse) :
    StreamOutcome :=
  if env.createOk then
    let r := runChunks resp.chunks
    let evs := Event.on_file_create task.output ::
      Event.on_start_download resp.finalUrl task.output :: r.2.1
    match r.2.2 with
    | Except.ok _ =>
      if env.flushOk then ⟨true, r.1, evs, Except.ok ()⟩
      else ⟨true, r.1, evs, Except.error DlError.flushFailed⟩
    | Except.error e => ⟨true, r.1, evs, Except.error e⟩
  else ⟨false, [], [], Except.error (DlError.createFailed task.output)⟩

/-- The observable outcome of `download_file` for one task: the events
emitted to the reporter, whether the request phase was reached, whether an
existing destination was removed, whether the destination was created, the
bytes written to it, and the task result. -/
structure FileOutcome where
  events : List Event
  requestSent : Bool
  fileRemoved : Bool
  fileCreated : Bool
  written : List Nat
  result : Except DlError Unit

/-- `Downloader::download_file` (`src/lib.rs` lines 137-186): existence
check, `on_request`, GET, `on_response`, status check, `on_file_size_known`,
streamed copy, `on_complete`. -/
def download_file (env : Env) (task : DownloadTask) : FileOutcome :=
  match handle_existing_file env task with
  | (evs, Except.error e) => ⟨evs, false, false, false, [], Except.error e⟩
  | (evs, Except.ok true) =>
    ⟨evs, false, false, false, [], Except.error (DlError.fileExists task.output)⟩
  | (evs, Except.ok false) =>
    let removed := env.fileExists && task.overwrite
    let evs1 := evs ++ [Event.on_request task.url]
    match env.response with
    | Except.error _ =>
      ⟨evs1 ++ [Event.on_error], true, removed, false, [],
        Except.error (DlError.requestFailed task.url)⟩
    | Except.ok resp =>
      let evs2 := evs1 ++ [Event.on_response]
      if isSuccessStatus resp.status then
        let evs3 := evs2 ++ [Event.on_file_size_known resp.contentLength]
        let s := download_stream env task resp
        match s.result with
        | Except.ok _ =>
          ⟨evs3 ++ s.events ++ [Event.on_complete task.url task.output],
            true, removed, s.fileCreated, s.written, Except.ok ()⟩
        | Except.error e =>
          ⟨evs3 ++ s.events, true, removed, s.fileCreated, s.written,
            Except.error e⟩
      else
        ⟨evs2 ++ [Event.on_error], true, removed, false, [],
          Except.error (DlError.badStatus task.url resp.status)⟩

/-- `Downloader` state: the retained task list (client and semaphore are
modelled elsewhere; `parallel_requests` records the permit count). -/
structure Downloader where
  tasks : List DownloadTask
  parallel_requests : Nat
  deriving DecidableEq

/-- `DownloadResult` (`src/lib.rs` lines 32-36). -/
structure DownloadResult where
  total : Nat
  errors : List DlError
  deriving DecidableEq

/-- `Downloader::download_internal` (`src/lib.rs` lines 90-116): the result
starts from `DownloadResult::new(self.task_count())` — the length of the
task list held by `self` at call time — and collects each dispatched
task's error, if any. -/
def download_internal (d : Downloader) (batch : List (DownloadTask × Env)) :
    DownloadResult :=
  { total := d.tasks.length
    errors := batch.filterMap fun te =>
      match (download_file te.2 te.1).result with
      | Except.ok _ => none
      | Except.error e => some e }

/-- `Downloader::download_all` (`src/lib.rs` lines 80-82): runs over clones
of the retained tasks; `envs i` is the environment met by the i-th task. -/
def download_all (d : Downloader) (envs : Nat → Env) :
    DownloadResult × Downloader :=
  (download_internal d (d.tasks.enum.map fun p => (p.2, envs p.1)), d)

/-- `Downloader::download_all_consume` (`src/lib.rs` lines 85-88):
`std::mem::take` empties the task list first, then `download_internal`
runs over the taken tasks. -/
def download_all_consume (d : Downloader) (envs : Nat → Env) :
    DownloadResult × Downloader :=
  let taken := d.tasks
  let d2 : Downloader := { d with tasks := [] }
  (download_internal d2 (taken.enum.map fun p => (p.2, envs p.1)), d2)

/-- `DownloaderBuilder` (`src/builder.rs`): the accumulated tasks and the
permit count (client and the unused `retries` field are elided). -/
structure DownloaderBuilder where
  tasks : List DownloadTask
  parallel_requests : Nat
  deriving DecidableEq

/-- The error `DownloaderBuilder::build` returns when no task was added. -/
inductive BuildError where
  | noTasks
  deriving DecidableEq

/-- The validation loop of `DownloaderBuilder::build` (`src/builder.rs`
lines 85-91), keeping order: valid tasks to the left list, an
`Invalid URL` error per invalid task to the right list.  `valid` abstracts
`reqwest::Url::parse(url).is_ok()`, which lives in an external crate. -/
def partitionTasks (valid : String → Bool) :
    List DownloadTask → List DownloadTask × List DlError
  | [] => ([], [])
  | t :: rest =>
    let r := partitionTasks valid rest
    if valid t.url then (t :: r.1, r.2)
    else (r.1, DlError.invalidUrl t.url :: r.2)

/-- `DownloaderBuilder::build` (`src/builder.rs` lines 81-105). -/
def build (valid : String → Bool) (b : DownloaderBuilder) :
    Except BuildError (Downloader × List DlError) :=
  let p := partitionTasks valid b.tasks
  if p.1.isEmpty && p.2.isEmpty then Except.error BuildError.noTasks
  else
    Except.ok
      ({ tasks := p.1, parallel_requests := b.parallel_requests }, p.2)

/-! ### Scheduler permit model

`download_internal` guards each spawned pipeline with a permit of
`tokio::sync::Semaphore::new(N)`: `acquire_owned` suspends until fewer
than `N` permits are held, and the permit is dropped when the pipeline
terminates.  The batch execution is modelled as a transition system over
the per-task phases. -/

/-- Phase of one scheduled task: not yet holding a permit, holding a
permit (its pipeline runs), or terminated (permit released). -/
inductive TaskPhase where
  | waiting
  | running
  | finished
  deriving DecidableEq

/-- Scheduler state: the permit count `limit` (`Semaphore::new limit`) and
the phase of each task of the batch. -/
structure SchedState where
  limit : Nat
  phases : List TaskPhase
  deriving DecidableEq

/-- The number of tasks currently holding a permit. -/
def heldCount (s : SchedState) : Nat :=
  (s.phases.filter (fun p => p == TaskPhase.running)).length

/-- Initial scheduler state for a batch of `n` tasks under `limit`
permits: nobody holds a permit. -/
def initState (n limit : Nat) : SchedState :=
  ⟨limit, List.replicate n TaskPhase.waiting⟩

/-- One scheduler transition: a waiting task acquires a permit (possible
only while fewer than `limit` are held — the semaphore blocks otherwise),
or a running task terminates and releases its permit. -/
inductive SchedStep : SchedState → SchedState → Prop where
  | acquire (s : SchedState) (i : Nat)
      (hw : s.phases[i]? = some TaskPhase.waiting)
      (hfree : heldCount s < s.limit) :
      SchedStep s ⟨s.limit, s.phases.set i TaskPhase.running⟩
  | release (s : SchedState) (i : Nat)
      (hr : s.phases[i]? = some TaskPhase.running) :
      SchedStep s ⟨s.limit, s.phases.set i TaskPhase.finished⟩

/-- Reachability by scheduler transitions. -/
inductive SchedReach (s0 : SchedState) : SchedState → Prop where
  | refl : SchedReach s0 s0
  | step {s t : SchedState} : SchedReach s0 s → SchedStep s t → SchedReach s0 t

/-! ### Model of `DownloadTask::sanitize_filename` (`src/lib.rs` 242-268) -/

/-- Characters the regex `[^a-zA-Z0-9_]+` leaves untouched. -/
def allowedNoDot (c : Char) : Bool :=
  ('a' ≤ c && c ≤ 'z') || ('A' ≤ c && c ≤ 'Z') || ('0' ≤ c && c ≤ '9') || c == '_'

/-- Characters the regex `[^a-zA-Z0-9\_.]+` leaves untouched. -/
def allowedDot (c : Char) : Bool :=
  allowedNoDot c || c == '.'

/-- `re_params.replace(url, "")` for `re_params = [?#].*$`: the leftmost
position holding a `?` or `#` with no newline after it (the `regex` crate's
`.` does not match a newline and `$` is end of haystack) starts the match,
and the match runs to the end, so everything from that position on is
removed. -/
def stripParams : List Char → List Char
  | [] => []
  | c :: rest =>
    if (c == '?' || c == '#') && !(rest.contains '\n') then []
    else c :: stripParams rest

/-- `clean_url.split('/').last().unwrap_or("temp")`: the suffix after the
last `/` (`split` always yields at least one piece, so the whole string
when there is no `/`). -/
def lastComponent (l : List Char) : List Char :=
  (l.reverse.takeWhile (fun c => !(c == '/'))).reverse

/-- The characters after the first occurrence of `pat`, or `none` when
`pat` does not occur (`pat` is non-empty at every use site). -/
def afterFirst (pat : List Char) : List Char → Option (List Char)
  | [] => none
  | c :: rest =>
    if pat.isPrefixOf (c :: rest) then some ((c :: rest).drop pat.length)
    else afterFirst pat rest

/-- The characters before the next occurrence of `pat` (all of them when
`pat` does not occur again). -/
def upToNext (pat : List Char) : List Char → List Char
  | [] => []
  | c :: rest =>
    if pat.isPrefixOf (c :: rest) then []
    else c :: upToNext pat rest

/-- `url.split("://").nth(1).unwrap_or("temp")`: the piece between the
first and the second occurrence of `://`, or `temp` when there is none. -/
def afterScheme (url : String) : List Char :=
  match afterFirst ("://".data) url.data with
  | none => "temp".data
  | some tail => upToNext ("://".data) tail

/-- `re_special.replace_all(base, "_")`: each maximal run of characters
not satisfying `allowed` collapses to a single underscore.  The boolean
argument records whether the previous character was part of such a run. -/
def collapseRuns (allowed : Char → Bool) : List Char → Bool → List Char
  | [], _ => []
  | c :: rest, prevBad =>
    if allowed c then c :: collapseRuns allowed rest false
    else if prevBad then collapseRuns allowed rest true
    else '_' :: collapseRuns allowed rest true

/-- `.trim_matches('_')`: strip leading and trailing underscores. -/
def trimUnd (l : List Char) : List Char :=
  ((l.dropWhile (fun c => c == '_')).reverse.dropWhile (fun c => c == '_')).reverse

/-- `DownloadTask::sanitize_filename` before the final
`.chars().take(100)`: strip query/fragment, take the last path component
(falling back to the part after the scheme of the original url when it is
empty, with the dot-less character class), collapse special runs, trim
underscores. -/
def sanitizeCore (url : String) : List Char :=
  let clean := stripParams url.data
  let base := lastComponent clean
  if base.isEmpty then
    trimUnd (collapseRuns allowedNoDot (afterScheme url) false)
  else
    trimUnd (collapseRuns allowedDot base false)

/-- `DownloadTask::sanitize_filename` (`src/lib.rs` lines 242-268). -/
def sanitize_filename (url : String) : String :=
  ⟨(sanitizeCore url).take 100⟩

/-! ### Event counting helpers -/

/-- Is the event an `on_complete`? -/
def isCompleteEv : Event → Bool
  | Event.on_complete _ _ => true
  | _ => false

/-- Is the event an `on_error`? -/
def isErrorEv : Event → Bool
  | Event.on_error => true
  | _ => false

/-- Number of `on_complete` events in a trace. -/
def countC (evs : List Event) : Nat := (evs.filter isCompleteEv).length

/-- Number of `on_error` events in a trace. -/
def countE (evs : List Event) : Nat := (evs.filter isErrorEv).length

/-- Sum of the deltas of the `on_progress` events of a trace. -/
def progressSum (evs : List Event) : Nat :=
  (evs.filterMap fun e =>
    match e with
    | Event.on_progress d => some d
    | _ => none).sum

/-- How many `on_error` events `download_file` emits for a given result:
one for a transport or status failure, none otherwise. -/
def terminalErrCount : Except DlError Unit → Nat
  | Except.ok _ => 0
  | Except.error (DlError.requestFailed _) => 1
  | Except.error (DlError.badStatus _ _) => 1
  | Except.error _ => 0

/-- How many `on_complete` events `download_file` emits for a result. -/
def okCount : Except DlError Unit → Nat
  | Except.ok _ => 1
  | Except.error _ => 0

example :
    (download_file
      ⟨true, false, true,
        Except.ok ⟨200, some 3, "http://h/a",
          [StreamItem.chunk [1, 2] true, StreamItem.chunk [3] true]⟩,
        true, true⟩
      ⟨"http://h/a", "a.txt", false⟩).result = Except.ok () := by rfl

example :
    (download_file
      ⟨true, true, true, Except.ok ⟨200, none, "u", []⟩, true, true⟩
      ⟨"http://h/a", "a.txt", false⟩).events =
      [Event.on_file_exists "a.txt" false] := by rfl

/-! ### Helper lemmas -/

theorem countC_append (a b : List Event) : countC (a ++ b) = countC a + countC b := by
  simp [countC, List.filter_append]

theorem countE_append (a b : List Event) : countE (a ++ b) = countE a + countE b := by
  simp [countE, List.filter_append]

theorem progressSum_append (a b : List Event) :
    progressSum (a ++ b) = progressSum a + progressSum b := by
  simp [progressSum, List.filterMap_append]

/-- The validation loop keeps exactly the valid tasks, in order. -/
theorem partitionTasks_fst (valid : String → Bool) (l : List DownloadTask) :
    (partitionTasks valid l).1 = l.filter fun t => valid t.url := by
  induction l with
  | nil => rfl
  | cons t rest ih =>
    cases h : valid t.url <;> simp [partitionTasks, List.filter_cons, h, ih]

/-- The validation loop turns exactly the invalid tasks into errors, in
order. -/
theorem partitionTasks_snd (valid : String → Bool) (l : List DownloadTask) :
    (partitionTasks valid l).2 =
      (l.filter fun t => !valid t.url).map fun t => DlError.invalidUrl t.url := by
  induction l with
  | nil => rfl
  | cons t rest ih =>
    cases h : valid t.url <;> simp [partitionTasks, List.filter_cons, h, ih]

/-- Every task added to the builder lands in exactly one of the two
outputs of the validation loop. -/
theorem partitionTasks_length (valid : String → Bool) (l : List DownloadTask) :
    (partitionTasks valid l).1.length + (partitionTasks valid l).2.length = l.length := by
  induction l with
  | nil => rfl
  | cons t rest ih =>
    cases h : valid t.url <;> simp [partitionTasks, h] <;> omega

/-- Both outputs of the validation loop are empty exactly when no task was
added. -/
theorem partitionTasks_isEmpty (valid : String → Bool) (l : List DownloadTask) :
    ((partitionTasks valid l).1.isEmpty && (partitionTasks valid l).2.isEmpty) =
      l.isEmpty := by
  cases l with
  | nil => rfl
  | cons t rest =>
    cases h : valid t.url <;> simp [partitionTasks, h]

example : sanitize_filename "https://example.com/file.txt?param=value" = "file.txt" := by rfl

example : sanitize_filename "https://example.com/" = "example_com" := by rfl

example :
    sanitize_filename "https://example.com/page/1/?param=value#fragment" =
      "example_com_page_1_param_value_fragment" := by rfl

theorem countC_nil : countC [] = 0 := rfl

theorem countE_nil : countE [] = 0 := rfl

theorem progressSum_nil : progressSum [] = 0 := rfl

theorem countC_cons (e : Event) (evs : List Event) :
    countC (e :: evs) = (if isCompleteEv e then 1 else 0) + countC evs := by
  cases h : isCompleteEv e <;> simp [countC, List.filter_cons, h] <;> omega

theorem countE_cons (e : Event) (evs : List Event) :
    countE (e :: evs) = (if isErrorEv e then 1 else 0) + countE evs := by
  cases h : isErrorEv e <;> simp [countE, List.filter_cons, h] <;> omega

/-- The chunk loop emits no terminal events. -/
theorem runChunks_counts (chunks : List StreamItem) :
    countC (runChunks chunks).2.1 = 0 ∧ countE (runChunks chunks).2.1 = 0 := by
  induction chunks with
  | nil => exact ⟨rfl, rfl⟩
  | cons c rest ih =>
    cases c with
    | readError => exact ⟨rfl, rfl⟩
    | chunk data ok =>
      cases ok with
      | false => exact ⟨rfl, rfl⟩
      | true => exact ⟨ih.1, ih.2⟩

/-- In the chunk loop the reported deltas sum to the bytes written: each
chunk is written first and its length reported right after. -/
theorem runChunks_progressSum (chunks : List StreamItem) :
    progressSum (runChunks chunks).2.1 = (runChunks chunks).1.length := by
  induction chunks with
  | nil => rfl
  | cons c rest ih =>
    cases c with
    | readError => rfl
    | chunk data ok =>
      cases ok with
      | false => rfl
      | true =>
        have h1 : progressSum (runChunks (StreamItem.chunk data true :: rest)).2.1
            = data.length + progressSum (runChunks rest).2.1 := rfl
        have h2 : (runChunks (StreamItem.chunk data true :: rest)).1.length
            = data.length + (runChunks rest).1.length := by
          show (data ++ (runChunks rest).1).length = _
          simp
        omega

/-- Chunk-loop failures are read or write failures. -/
theorem runChunks_error (chunks : List StreamItem) (e : DlError)
    (h : (runChunks chunks).2.2 = Except.error e) :
    e = DlError.chunkReadFailed ∨ e = DlError.writeFailed := by
  induction chunks with
  | nil => exact Except.noConfusion h
  | cons c rest ih =>
    cases c with
    | readError => exact Or.inl (Except.error.inj h).symm
    | chunk data ok =>
      cases ok with
      | false => exact Or.inr (Except.error.inj h).symm
      | true => exact ih h

/-- `download_stream` either fails to create the file (no events, nothing
written) or emits the file-creation and start events followed by the chunk
loop's events, having written the chunk loop's bytes. -/
theorem download_stream_shape (env : Env) (task : DownloadTask) (resp : HttpResponse) :
    ((download_stream env task resp).events = [] ∧
      (download_stream env task resp).written = []) ∨
    ((download_stream env task resp).events =
        Event.on_file_create task.output ::
          Event.on_start_download resp.finalUrl task.output ::
          (runChunks resp.chunks).2.1 ∧
      (download_stream env task resp).written = (runChunks resp.chunks).1) := by
  simp only [download_stream]
  cases env.createOk with
  | false => exact Or.inl ⟨rfl, rfl⟩
  | true =>
    rcases (runChunks resp.chunks).2.2 with e | u
    · exact Or.inr ⟨rfl, rfl⟩
    · cases env.flushOk with
      | false => exact Or.inr ⟨rfl, rfl⟩
      | true => exact Or.inr ⟨rfl, rfl⟩

/-- `download_stream` emits no `on_complete`. -/
theorem download_stream_countC (env : Env) (task : DownloadTask) (resp : HttpResponse) :
    countC (download_stream env task resp).events = 0 := by
  rcases download_stream_shape env task resp with ⟨he, -⟩ | ⟨he, -⟩ <;> rw [he]
  · rfl
  · exact (runChunks_counts resp.chunks).1

/-- `download_stream` emits no `on_error`. -/
theorem download_stream_countE (env : Env) (task : DownloadTask) (resp : HttpResponse) :
    countE (download_stream env task resp).events = 0 := by
  rcases download_stream_shape env task resp with ⟨he, -⟩ | ⟨he, -⟩ <;> rw [he]
  · rfl
  · exact (runChunks_counts resp.chunks).2

/-- Over the whole streamed copy, reported deltas sum to bytes written. -/
theorem download_stream_progress (env : Env) (task : DownloadTask) (resp : HttpResponse) :
    progressSum (download_stream env task resp).events =
      (download_stream env task resp).written.length := by
  rcases download_stream_shape env task resp with ⟨he, hw⟩ | ⟨he, hw⟩ <;> rw [he, hw]
  · rfl
  · exact runChunks_progressSum resp.chunks

/-- Failures of the streamed copy are never transport or status failures,
so they carry no `on_error` event. -/
theorem download_stream_error (env : Env) (task : DownloadTask) (resp : HttpResponse)
    (e : DlError) (h : (download_stream env task resp).result = Except.error e) :
    terminalErrCount (Except.error e) = 0 := by
  simp only [download_stream] at h
  cases hc : env.createOk with
  | false =>
    rw [hc] at h
    simp only [Bool.false_eq_true, if_false] at h
    injection h with h2
    rw [← h2]
    rfl
  | true =>
    rw [hc] at h
    simp only [if_true] at h
    rcases hrc : (runChunks resp.chunks).2.2 with e2 | u <;> rw [hrc] at h
    · injection h with h2
      rw [← h2]
      rcases runChunks_error resp.chunks e2 hrc with h3 | h3 <;> rw [h3] <;> rfl
    · cases hf : env.flushOk <;> rw [hf] at h
      · injection h with h2
        rw [← h2]
        rfl
      · simp at h

/-- The existence check emits no terminal and no progress events. -/
theorem handle_existing_file_events (env : Env) (task : DownloadTask) :
    countC (handle_existing_file env task).1 = 0 ∧
    countE (handle_existing_file env task).1 = 0 ∧
    progressSum (handle_existing_file env task).1 = 0 := by
  unfold handle_existing_file
  cases env.existsCheckOk <;> cases env.fileExists <;> cases task.overwrite <;>
    cases env.removeOk <;> exact ⟨rfl, rfl, rfl⟩

/-- Failures of the existence check are never transport or status
failures, so they carry no `on_error` event. -/
theorem handle_existing_file_error (env : Env) (task : DownloadTask) (e : DlError)
    (h : (handle_existing_file env task).2 = Except.error e) :
    terminalErrCount (Except.error e) = 0 := by
  revert h
  unfold handle_existing_file
  cases env.existsCheckOk <;> cases env.fileExists <;> cases task.overwrite <;>
    cases env.removeOk <;> intro h <;>
    first
      | exact Except.noConfusion h
      | · injection h with h2
          rw [← h2]
          rfl

/-- Setting one list entry raises the number of `running` entries by at
most one. -/
theorem filter_running_set_le_one (l : List TaskPhase) (i : Nat) (v : TaskPhase) :
    ((l.set i v).filter (fun p => p == TaskPhase.running)).length ≤
      (l.filter (fun p => p == TaskPhase.running)).length + 1 := by
  induction l generalizing i with
  | nil => simp
  | cons a t ih =>
    cases i with
    | zero =>
      cases hv : v == TaskPhase.running <;> cases ha : a == TaskPhase.running <;>
        simp [List.set, List.filter_cons, hv, ha] <;> omega
    | succ m =>
      have hm := ih m
      cases ha : a == TaskPhase.running <;>
        simp [List.set, List.filter_cons, ha] <;> omega

/-- Overwriting one list entry with a non-`running` value never raises the
number of `running` entries. -/
theorem filter_running_set_keep (l : List TaskPhase) (i : Nat) (v : TaskPhase)
    (hv : (v == TaskPhase.running) = false) :
    ((l.set i v).filter (fun p => p == TaskPhase.running)).length ≤
      (l.filter (fun p => p == TaskPhase.running)).length := by
  induction l generalizing i with
  | nil => simp
  | cons a t ih =>
    cases i with
    | zero =>
      cases ha : a == TaskPhase.running <;>
        simp [List.set, List.filter_cons, hv, ha] <;> omega
    | succ m =>
      have hm := ih m
      cases ha : a == TaskPhase.running <;>
        simp [List.set, List.filter_cons, ha] <;> omega

/-- Initially nobody holds a permit. -/
theorem heldCount_init (n limit : Nat) : heldCount (initState n limit) = 0 := by
  have hf : (List.replicate n TaskPhase.waiting).filter
      (fun p => p == TaskPhase.running) = [] := by
    rw [List.filter_eq_nil_iff]
    intro a ha
    rw [List.eq_of_mem_replicate ha]
    decide
  show (List.filter _ (List.replicate n TaskPhase.waiting)).length = 0
  rw [hf]
  rfl

/-- Every character the run-collapsing step emits is either allowed or the
replacement underscore. -/
theorem mem_collapseRuns (allowed : Char → Bool) (l : List Char) (b : Bool)
    (c : Char) (h : c ∈ collapseRuns allowed l b) :
    allowed c = true ∨ c = '_' := by
  induction l generalizing b with
  | nil => simp [collapseRuns] at h
  | cons a t ih =>
    cases ha : allowed a with
    | true =>
      simp only [collapseRuns, ha, if_true] at h
      rcases List.mem_cons.mp h with h2 | h2
      · exact Or.inl (h2 ▸ ha)
      · exact ih false h2
    | false =>
      cases b with
      | true =>
        simp only [collapseRuns, ha, Bool.false_eq_true, if_false, if_true] at h
        exact ih true h
      | false =>
        simp only [collapseRuns, ha, Bool.false_eq_true, if_false] at h
        rcases List.mem_cons.mp h with h2 | h2
        · exact Or.inr h2
        · exact ih true h2

/-- The first element surviving `dropWhile` fails the predicate. -/
theorem head_dropWhile_not (p : Char → Bool) (l : List Char) (c : Char)
    (h : (l.dropWhile p).head? = some c) : p c = false := by
  induction l with
  | nil => exact Option.noConfusion h
  | cons a t ih =>
    cases hp : p a with
    | true =>
      rw [List.dropWhile_cons, hp] at h
      simp only [if_true] at h
      exact ih h
    | false =>
      rw [List.dropWhile_cons, hp] at h
      simp only [Bool.false_eq_true, if_false, List.head?_cons] at h
      injection h with h2
      rw [← h2]
      exact hp

/-- The trimmed string never starts with an underscore. -/
theorem trimUnd_head (l : List Char) (c : Char)
    (h : (trimUnd l).head? = some c) : (c == '_') = false := by
  have hpre : trimUnd l <+: l.dropWhile (fun x => x == '_') := by
    have h1 : ((l.dropWhile (fun x => x == '_')).reverse.dropWhile (fun x => x == '_'))
        <:+ (l.dropWhile (fun x => x == '_')).reverse :=
      List.dropWhile_suffix _
    have h2 := List.reverse_prefix.mpr h1
    rwa [List.reverse_reverse] at h2
  obtain ⟨t2, ht2⟩ := hpre
  have hm : (l.dropWhile (fun x => x == '_')).head? = some c := by
    rw [← ht2]
    cases htr : trimUnd l with
    | nil => rw [htr] at h; exact Option.noConfusion h
    | cons x xs =>
      rw [htr] at h
      injection h with h2
      rw [← h2]
      rfl
  exact head_dropWhile_not _ l c hm

/-- The trimmed string never ends with an underscore. -/
theorem trimUnd_getLast (l : List Char) (c : Char)
    (h : (trimUnd l).getLast? = some c) : (c == '_') = false := by
  unfold trimUnd at h
  rw [List.getLast?_reverse] at h
  exact head_dropWhile_not _ _ c h

/-- Trimming only removes characters. -/
theorem mem_trimUnd (l : List Char) (c : Char) (h : c ∈ trimUnd l) : c ∈ l := by
  unfold trimUnd at h
  rw [List.mem_reverse] at h
  have h2 := (List.dropWhile_suffix (l := (l.dropWhile (fun x => x == '_')).reverse)
    (fun x => x == '_')).subset h
  rw [List.mem_reverse] at h2
  exact (List.dropWhile_suffix (fun x => x == '_')).subset h2

/-- The head survives `take 100`. -/
theorem head_take_100 (l : List Char) (c : Char)
    (h : (l.take 100).head? = some c) : l.head? = some c := by
  cases l with
  | nil => exact h
  | cons a t => exact h

/-! ### Claims -/

/-- C1: the claim says every invocation mode returns `total` equal to the
number of tasks of the batch.  `download_all` does (first conjunct), but
`download_all_consume` empties the task list with `std::mem::take` before
`download_internal` reads `self.task_count()`, so a one-task batch run in
consume mode reports `total = 0` (second conjunct), contradicting the
claim. -/
theorem C1_consume_total_is_zero :
    (download_all (Downloader.mk [DownloadTask.mk "http://h/a" "a" false] 5)
        (fun _ => Env.mk true false true
          (Except.ok (HttpResponse.mk 200 none "http://h/a" [])) true true)).1.total = 1 ∧
    (download_all_consume (Downloader.mk [DownloadTask.mk "http://h/a" "a" false] 5)
        (fun _ => Env.mk true false true
          (Except.ok (HttpResponse.mk 200 none "http://h/a" [])) true true)).1.total = 0 :=
  ⟨rfl, rfl⟩

/-- C2 counterexample: a task failing because its destination exists and
`overwrite` is false produces a trace with no terminal event at all —
neither `on_complete` nor `on_error` — although the task fails, so the
claimed "exactly one terminal event per task" discipline does not hold. -/
theorem C2_failure_without_terminal_event :
    (download_file
        (Env.mk true true true (Except.ok (HttpResponse.mk 200 none "u" [])) true true)
        (DownloadTask.mk "http://h/a" "a.txt" false)).result =
      Except.error (DlError.fileExists "a.txt") ∧
    countC (download_file
        (Env.mk true true true (Except.ok (HttpResponse.mk 200 none "u" [])) true true)
        (DownloadTask.mk "http://h/a" "a.txt" false)).events = 0 ∧
    countE (download_file
        (Env.mk true true true (Except.ok (HttpResponse.mk 200 none "u" [])) true true)
        (DownloadTask.mk "http://h/a" "a.txt" false)).events = 0 :=
  ⟨rfl, rfl, rfl⟩

/-- C2 (amended): `on_complete` is emitted exactly once when the task
succeeds and never on failure; `on_error` is emitted exactly once when the
task fails in the request or response-status phase and never otherwise —
in particular, failures of the existence check, the destination-exists
rejection, file creation, the streamed copy and the final flush terminate
with neither terminal event. -/
theorem C2_terminal_event_discipline (env : Env) (task : DownloadTask) :
    countC (download_file env task).events = okCount (download_file env task).result ∧
    countE (download_file env task).events =
      terminalErrCount (download_file env task).result := by
  have hev := handle_existing_file_events env task
  rcases hhe : handle_existing_file env task with ⟨evs, r⟩
  rw [hhe] at hev
  have hc0 : countC evs = 0 := hev.1
  have he0 : countE evs = 0 := hev.2.1
  unfold download_file
  rw [hhe]
  rcases r with e | b
  · dsimp only
    have ht : terminalErrCount (Except.error e) = 0 :=
      handle_existing_file_error env task e (by rw [hhe])
    exact ⟨hc0, by rw [ht]; exact he0⟩
  · cases b with
    | true => exact ⟨hc0, he0⟩
    | false =>
      rcases hresp : env.response with u | resp
      · dsimp only
        refine ⟨?_, ?_⟩
        · rw [countC_append, countC_append, hc0]
          rfl
        · rw [countE_append, countE_append, he0]
          rfl
      · dsimp only
        cases hs : isSuccessStatus resp.status with
        | false =>
          simp only [Bool.false_eq_true, if_false]
          refine ⟨?_, ?_⟩
          · rw [countC_append, countC_append, countC_append, hc0]
            rfl
          · rw [countE_append, countE_append, countE_append, he0]
            rfl
        | true =>
          simp only [if_true]
          rcases hres : (download_stream env task resp).result with e | u
          · dsimp only
            have ht := download_stream_error env task resp e hres
            refine ⟨?_, ?_⟩
            · rw [countC_append, countC_append, countC_append, countC_append,
                hc0, download_stream_countC]
              rfl
            · rw [countE_append, countE_append, countE_append, countE_append,
                he0, download_stream_countE, ht]
              rfl
          · dsimp only
            refine ⟨?_, ?_⟩
            · rw [countC_append, countC_append, countC_append, countC_append,
                countC_append, hc0, download_stream_countC]
              rfl
            · rw [countE_append, countE_append, countE_append, countE_append,
                countE_append, he0, download_stream_countE]
              rfl

/-- C7: over the whole pipeline of one task, the deltas passed to
`on_progress` sum exactly to the number of bytes written to the task's
destination file: every chunk is written via `write_all` first and its
byte length reported right after, and no other phase writes or reports
progress. -/
theorem C7_progress_deltas_sum_to_written (env : Env) (task : DownloadTask) :
    progressSum (download_file env task).events =
      (download_file env task).written.length := by
  have hev := handle_existing_file_events env task
  rcases hhe : handle_existing_file env task with ⟨evs, r⟩
  rw [hhe] at hev
  have hp0 : progressSum evs = 0 := hev.2.2
  unfold download_file
  rw [hhe]
  rcases r with e | b
  · dsimp only
    exact hp0
  · cases b with
    | true => exact hp0
    | false =>
      have e1 : progressSum [Event.on_request task.url] = 0 := rfl
      have e2 : progressSum [Event.on_error] = 0 := rfl
      have e3 : progressSum [Event.on_response] = 0 := rfl
      rcases hresp : env.response with u | resp
      · dsimp only
        rw [progressSum_append, progressSum_append, hp0, e1, e2]
        rfl
      · dsimp only
        have e4 : progressSum [Event.on_file_size_known resp.contentLength] = 0 := rfl
        cases hs : isSuccessStatus resp.status with
        | false =>
          simp only [Bool.false_eq_true, if_false]
          rw [progressSum_append, progressSum_append, progressSum_append,
            hp0, e1, e2, e3]
          rfl
        | true =>
          simp only [if_true]
          have e5 : progressSum [Event.on_complete task.url task.output] = 0 := rfl
          rcases hres : (download_stream env task resp).result with e | u
          · dsimp only
            rw [progressSum_append, progressSum_append, progressSum_append,
              progressSum_append, hp0, e1, e3, e4, download_stream_progress]
            omega
          · dsimp only
            rw [progressSum_append, progressSum_append, progressSum_append,
              progressSum_append, progressSum_append, hp0, e1, e3, e4, e5,
              download_stream_progress]
            omega

/-- C5: a task whose destination exists while `overwrite` is false fails
with the destination-exists error before the request phase: `on_request`
is never emitted, the client is never used, and the existing file is
neither removed, recreated nor written to. -/
theorem C5_exists_no_overwrite_no_request (env : Env) (task : DownloadTask)
    (hex : env.fileExists = true) (hov : task.overwrite = false)
    (hchk : env.existsCheckOk = true) :
    (download_file env task).result = Except.error (DlError.fileExists task.output) ∧
    (download_file env task).requestSent = false ∧
    Event.on_request task.url ∉ (download_file env task).events ∧
    (download_file env task).fileRemoved = false ∧
    (download_file env task).fileCreated = false ∧
    (download_file env task).written = [] := by
  have hhe : handle_existing_file env task =
      ([Event.on_file_exists task.output task.overwrite], Except.ok true) := by
    unfold handle_existing_file
    rw [hchk, hex, hov]
    simp
  unfold download_file
  rw [hhe]
  dsimp only
  refine ⟨rfl, rfl, ?_, rfl, rfl, rfl⟩
  intro hmem
  simp at hmem

/-- C5 witness: concrete instantiation with an existing destination and
`overwrite = false`. -/
theorem C5_exists_no_overwrite_no_request_witness :
    (download_file (Env.mk true true true (Except.error ()) true true)
        (DownloadTask.mk "http://x" "f.txt" false)).result =
      Except.error (DlError.fileExists "f.txt") ∧
    (download_file (Env.mk true true true (Except.error ()) true true)
        (DownloadTask.mk "http://x" "f.txt" false)).requestSent = false ∧
    Event.on_request "http://x" ∉
      (download_file (Env.mk true true true (Except.error ()) true true)
        (DownloadTask.mk "http://x" "f.txt" false)).events ∧
    (download_file (Env.mk true true true (Except.error ()) true true)
        (DownloadTask.mk "http://x" "f.txt" false)).fileRemoved = false ∧
    (download_file (Env.mk true true true (Except.error ()) true true)
        (DownloadTask.mk "http://x" "f.txt" false)).fileCreated = false ∧
    (download_file (Env.mk true true true (Except.error ()) true true)
        (DownloadTask.mk "http://x" "f.txt" false)).written = [] :=
  C5_exists_no_overwrite_no_request
    (Env.mk true true true (Except.error ()) true true)
    (DownloadTask.mk "http://x" "f.txt" false) rfl rfl rfl

/-- C6: when the pipeline reaches a response whose status is not 2xx, the
task fails with the response-status error and the destination file is
never created (creation happens only after the status check), with
nothing written. -/
theorem C6_bad_status_no_file (env : Env) (task : DownloadTask) (resp : HttpResponse)
    (hchk : env.existsCheckOk = true)
    (hpass : env.fileExists = true → task.overwrite = true ∧ env.removeOk = true)
    (hr : env.response = Except.ok resp)
    (hs : isSuccessStatus resp.status = false) :
    (download_file env task).result =
      Except.error (DlError.badStatus task.url resp.status) ∧
    (download_file env task).fileCreated = false ∧
    (download_file env task).written = [] := by
  have key : ∀ evs0 : List Event,
      handle_existing_file env task = (evs0, Except.ok false) →
      (download_file env task).result =
        Except.error (DlError.badStatus task.url resp.status) ∧
      (download_file env task).fileCreated = false ∧
      (download_file env task).written = [] := by
    intro evs0 hhe
    unfold download_file
    rw [hhe]
    dsimp only
    rw [hr]
    dsimp only
    rw [hs]
    simp only [Bool.false_eq_true, if_false]
    exact ⟨trivial, trivial, trivial⟩
  cases hfe : env.fileExists with
  | false =>
    refine key [] ?_
    unfold handle_existing_file
    rw [hchk, hfe]
    simp
  | true =>
    obtain ⟨how, hro⟩ := hpass hfe
    refine key [Event.on_file_exists task.output task.overwrite] ?_
    unfold handle_existing_file
    rw [hchk, hfe, how, hro]
    simp

/-- C6 witness: concrete instantiation with an HTTP 404 response. -/
theorem C6_bad_status_no_file_witness :
    (download_file
        (Env.mk true false true (Except.ok (HttpResponse.mk 404 none "u" [])) true true)
        (DownloadTask.mk "http://x" "o" false)).result =
      Except.error (DlError.badStatus "http://x" 404) ∧
    (download_file
        (Env.mk true false true (Except.ok (HttpResponse.mk 404 none "u" [])) true true)
        (DownloadTask.mk "http://x" "o" false)).fileCreated = false ∧
    (download_file
        (Env.mk true false true (Except.ok (HttpResponse.mk 404 none "u" [])) true true)
        (DownloadTask.mk "http://x" "o" false)).written = [] :=
  C6_bad_status_no_file
    (Env.mk true false true (Except.ok (HttpResponse.mk 404 none "u" [])) true true)
    (DownloadTask.mk "http://x" "o" false)
    (HttpResponse.mk 404 none "u" [])
    rfl (by decide) rfl rfl

/-- C8: `download_all` leaves the downloader's task list unchanged, while
`download_all_consume` empties it, and a later consuming invocation on the
drained downloader dispatches nothing (its result is `total = 0` with no
errors). -/
theorem C8_retain_vs_drain (d : Downloader) (envs envs2 : Nat → Env) :
    (download_all d envs).2 = d ∧
    (download_all_consume d envs).2.tasks = [] ∧
    (download_all_consume ((download_all_consume d envs).2) envs2).1 =
      DownloadResult.mk 0 [] :=
  ⟨rfl, rfl, rfl⟩

/-- C3: in every state the scheduler can reach from the start of a batch
of `n` tasks under `limit` permits, at most `limit` tasks hold a permit
simultaneously: a permit is taken only when fewer than `limit` are held
(the semaphore blocks otherwise) and is given back only when the holding
pipeline terminates. -/
theorem C3_bounded_permits (n limit : Nat) (s : SchedState)
    (h : SchedReach (initState n limit) s) :
    heldCount s ≤ limit := by
  have main : heldCount s ≤ s.limit ∧ s.limit = limit := by
    induction h with
    | refl => exact ⟨by rw [heldCount_init]; exact Nat.zero_le _, rfl⟩
    | @step s1 t1 hreach hstep ih =>
      cases hstep with
      | acquire i hw hfree =>
        refine ⟨?_, ih.2⟩
        show heldCount ⟨s1.limit, s1.phases.set i TaskPhase.running⟩ ≤ s1.limit
        have hle := filter_running_set_le_one s1.phases i TaskPhase.running
        have h2 : heldCount ⟨s1.limit, s1.phases.set i TaskPhase.running⟩ =
            ((s1.phases.set i TaskPhase.running).filter
              (fun p => p == TaskPhase.running)).length := rfl
        have h3 : heldCount s1 =
            (s1.phases.filter (fun p => p == TaskPhase.running)).length := rfl
        rw [h3] at hfree
        rw [h2]
        omega
      | release i hr =>
        refine ⟨?_, ih.2⟩
        show heldCount ⟨s1.limit, s1.phases.set i TaskPhase.finished⟩ ≤ s1.limit
        have hle := filter_running_set_keep s1.phases i TaskPhase.finished (by decide)
        have h2 : heldCount ⟨s1.limit, s1.phases.set i TaskPhase.finished⟩ =
            ((s1.phases.set i TaskPhase.finished).filter
              (fun p => p == TaskPhase.running)).length := rfl
        have hih : heldCount s1 ≤ s1.limit := ih.1
        have h3 : heldCount s1 =
            (s1.phases.filter (fun p => p == TaskPhase.running)).length := rfl
        rw [h3] at hih
        rw [h2]
        omega
  rw [← main.2]
  exact main.1

/-- C3 witness: a reachable state of a three-task batch under two permits
in which one task has acquired a permit. -/
theorem C3_bounded_permits_witness :
    heldCount
        (SchedState.mk 2
          [TaskPhase.running, TaskPhase.waiting, TaskPhase.waiting]) ≤ 2 :=
  C3_bounded_permits 3 2
    (SchedState.mk 2 [TaskPhase.running, TaskPhase.waiting, TaskPhase.waiting])
    (SchedReach.step SchedReach.refl
      (SchedStep.acquire (initState 3 2) 0 (by decide) (by decide)))

/-- C9 counterexample: `trim_matches('_')` runs before `.take(100)`, so an
input whose sanitized form is longer than 100 characters can be truncated
right after an inner underscore — the result then ends with an
underscore, contradicting the claim.  Input: `a`, 100 underscores, `b`. -/
theorem C9_truncated_name_ends_in_underscore :
    (sanitize_filename
        (String.mk ('a' :: (List.replicate 100 '_' ++ ['b'])))).data.getLast? =
      some '_' ∧
    (sanitize_filename
        (String.mk ('a' :: (List.replicate 100 '_' ++ ['b'])))).data.length = 100 := by
  constructor <;> decide

/-- C9 (amended): `sanitize_filename` returns at most 100 characters, all
drawn from ASCII letters, digits, underscore and dot (so no path
separator), and the result never starts with an underscore; it also never
ends with an underscore provided the 100-character truncation did not cut
the trimmed name (truncation can expose a trailing underscore). -/
theorem C9_sanitize_filename_shape (url : String) :
    (sanitize_filename url).data.length ≤ 100 ∧
    (∀ c ∈ (sanitize_filename url).data, allowedDot c = true) ∧
    (sanitize_filename url).data.head? ≠ some '_' ∧
    ((sanitizeCore url).length ≤ 100 →
      (sanitize_filename url).data.getLast? ≠ some '_') := by
  refine ⟨?_, ?_, ?_, ?_⟩
  · exact List.length_take_le _ _
  · intro c hc
    have hc2 : c ∈ sanitizeCore url := List.take_subset _ _ hc
    simp only [sanitizeCore] at hc2
    split at hc2
    · have hc3 := mem_collapseRuns _ _ _ _ (mem_trimUnd _ _ hc2)
      rcases hc3 with h | h
      · simp [allowedDot, h]
      · rw [h]
        decide
    · have hc3 := mem_collapseRuns _ _ _ _ (mem_trimUnd _ _ hc2)
      rcases hc3 with h | h
      · exact h
      · rw [h]
        decide
  · intro h
    have h2 : (sanitizeCore url).head? = some '_' := head_take_100 _ _ h
    simp only [sanitizeCore] at h2
    split at h2 <;> exact absurd (trimUnd_head _ _ h2) (by decide)
  · intro hlen h
    replace h : ((sanitizeCore url).take 100).getLast? = some '_' := h
    rw [List.take_of_length_le hlen] at h
    simp only [sanitizeCore] at h
    split at h <;> exact absurd (trimUnd_getLast _ _ h) (by decide)

/-- C9 witness: a short URL is left untrimmed and keeps its clean
extension. -/
theorem C9_sanitize_filename_shape_witness :
    (sanitizeCore "http://x/ab.txt").length ≤ 100 ∧
    (sanitize_filename "http://x/ab.txt").data.getLast? ≠ some '_' :=
  ⟨by decide, (C9_sanitize_filename_shape "http://x/ab.txt").2.2.2 (by decide)⟩

/-- C10: `DownloaderBuilder::build` errors exactly when no task was ever
added; otherwise it returns the valid tasks as the downloader's list and
one validation error per invalid task, so the two output counts sum to the
number of added tasks. -/
theorem C10_build_partitions (valid : String → Bool) (b : DownloaderBuilder) :
    ((build valid b = Except.error BuildError.noTasks) ↔ b.tasks = []) ∧
    (b.tasks ≠ [] →
      build valid b = Except.ok
        ({ tasks := b.tasks.filter fun t => valid t.url,
           parallel_requests := b.parallel_requests },
         (b.tasks.filter fun t => !valid t.url).map fun t => DlError.invalidUrl t.url)) ∧
    (b.tasks.filter fun t => valid t.url).length +
      ((b.tasks.filter fun t => !valid t.url).map fun t => DlError.invalidUrl t.url).length
      = b.tasks.length := by
  have hcond := partitionTasks_isEmpty valid b.tasks
  have hfst := partitionTasks_fst valid b.tasks
  have hsnd := partitionTasks_snd valid b.tasks
  have hlen := partitionTasks_length valid b.tasks
  rw [hfst, hsnd] at hlen
  refine ⟨?_, ?_, hlen⟩
  · cases hbt : b.tasks.isEmpty with
    | true =>
      have hb : b.tasks = [] := List.isEmpty_iff.mp hbt
      rw [hbt] at hcond
      simp [build, hcond, hb, partitionTasks]
    | false =>
      have hb : b.tasks ≠ [] := by
        intro h
        rw [h] at hbt
        simp at hbt
      rw [hbt] at hcond
      simp [build, hcond, hb]
  · intro hne
    have hbt : b.tasks.isEmpty = false := by
      cases hbt2 : b.tasks.isEmpty with
      | true => exact absurd (List.isEmpty_iff.mp hbt2) hne
      | false => rfl
    rw [hbt] at hcond
    simp only [build, hcond, Bool.false_eq_true, if_false]
    rw [hfst, hsnd]

/-- C10 witness: a builder holding one valid and one invalid task builds
successfully into a one-task downloader plus one validation error. -/
theorem C10_build_partitions_witness :
    build (fun s => s == "http://a")
        (DownloaderBuilder.mk
          [DownloadTask.mk "http://a" "o1" false, DownloadTask.mk "bad" "o2" true] 5) =
      Except.ok
        (Downloader.mk [DownloadTask.mk "http://a" "o1" false] 5,
         [DlError.invalidUrl "bad"]) := by
  have h := (C10_build_partitions (fun s => s == "http://a")
      (DownloaderBuilder.mk
        [DownloadTask.mk "http://a" "o1" false, DownloadTask.mk "bad" "o2" true] 5)).2.1
    (by decide)
  exact h

/-- C4 counterexample: two tasks submitted to the builder, one with a
malformed URL.  The malformed task neither contributes to
`DownloadResult.total` (which is `1`, not `2`) nor appears among the
result's failures (which are empty): validation errors live only in the
separate list returned by `build`. -/
theorem C4_validation_not_in_result :
    build (fun s => s == "http://a")
        (DownloaderBuilder.mk
          [DownloadTask.mk "not a url" "o1" false, DownloadTask.mk "http://a" "o2" false] 5) =
      Except.ok
        (Downloader.mk [DownloadTask.mk "http://a" "o2" false] 5,
         [DlError.invalidUrl "not a url"]) ∧
    (download_all (Downloader.mk [DownloadTask.mk "http://a" "o2" false] 5)
        (fun _ => Env.mk true false true
          (Except.ok (HttpResponse.mk 200 none "http://a" [])) true true)).1.total = 1 ∧
    (download_all (Downloader.mk [DownloadTask.mk "http://a" "o2" false] 5)
        (fun _ => Env.mk true false true
          (Except.ok (HttpResponse.mk 200 none "http://a" [])) true true)).1.errors = [] :=
  ⟨rfl, rfl, rfl⟩

/-- C4 (amended): a task whose URL fails validation is never dispatched —
it does not enter the built downloader's task list — and it is classified
as a validation error in the separate list returned by
`DownloaderBuilder::build`; it does not contribute to the
`DownloadResult.total` of a later batch run, which counts only the valid
tasks. -/
theorem C4_invalid_never_dispatched (valid : String → Bool)
    (b : DownloaderBuilder) (d : Downloader) (errs : List DlError)
    (t : DownloadTask) (envs : Nat → Env)
    (hbuild : build valid b = Except.ok (d, errs))
    (ht : t ∈ b.tasks) (hbad : valid t.url = false) :
    t ∉ d.tasks ∧ DlError.invalidUrl t.url ∈ errs ∧
      (download_all d envs).1.total = (b.tasks.filter fun x => valid x.url).length := by
  have hd : d.tasks = (partitionTasks valid b.tasks).1 ∧
      errs = (partitionTasks valid b.tasks).2 := by
    by_cases hcond : ((partitionTasks valid b.tasks).1.isEmpty &&
        (partitionTasks valid b.tasks).2.isEmpty) = true
    · simp only [build] at hbuild
      rw [if_pos hcond] at hbuild
      exact absurd hbuild (by simp)
    · simp only [build] at hbuild
      rw [if_neg hcond] at hbuild
      have h1 := Except.ok.inj hbuild
      exact ⟨(congrArg (fun x => x.1.tasks) h1).symm, (congrArg (fun x => x.2) h1).symm⟩
  refine ⟨?_, ?_, ?_⟩
  · intro hmem
    rw [hd.1, partitionTasks_fst] at hmem
    have := (List.mem_filter.mp hmem).2
    rw [hbad] at this
    exact Bool.false_ne_true this
  · rw [hd.2, partitionTasks_snd]
    exact List.mem_map.mpr ⟨t, List.mem_filter.mpr ⟨ht, by rw [hbad]; rfl⟩, rfl⟩
  · show d.tasks.length = _
    rw [hd.1, partitionTasks_fst]

/-- C4 witness: instantiation of the amended claim at a concrete builder
holding one valid and one malformed task. -/
theorem C4_invalid_never_dispatched_witness :
    DownloadTask.mk "bad" "o2" true ∉
        (Downloader.mk [DownloadTask.mk "http://a" "o1" false] 5).tasks ∧
      DlError.invalidUrl "bad" ∈ [DlError.invalidUrl "bad"] ∧
      (download_all (Downloader.mk [DownloadTask.mk "http://a" "o1" false] 5)
          (fun _ => Env.mk true false true
            (Except.ok (HttpResponse.mk 200 none "http://a" [])) true true)).1.total =
        ((DownloaderBuilder.mk
            [DownloadTask.mk "http://a" "o1" false, DownloadTask.mk "bad" "o2" true]
            5).tasks.filter fun x => (fun s => s == "http://a") x.url).length :=
  C4_invalid_never_dispatched (fun s => s == "http://a")
    (DownloaderBuilder.mk
      [DownloadTask.mk "http://a" "o1" false, DownloadTask.mk "bad" "o2" true] 5)
    (Downloader.mk [DownloadTask.mk "http://a" "o1" false] 5)
    [DlError.invalidUrl "bad"]
    (DownloadTask.mk "bad" "o2" true)
    (fun _ => Env.mk true false true
      (Except.ok (HttpResponse.mk 200 none "http://a" [])) true true)
    (by rfl) (by decide) (by rfl)

end DownloaderCli
